import Mathlib

/-!
Shallow embedding of the ssh-paste-kitten sources (src/smart_paste.py and
src/ssh_drop_upload.py).  Pure string and list computations are translated
directly; the external capabilities (filesystem existence checks, absolute
path resolution, the nanosecond clock, the clipboard and the window process
list) are passed in as explicit parameters.
-/

namespace SSHPaste

/-- The single-quote character (code 39), used throughout the shell quoting
logic of both source files. -/
def sqChar : Char := Char.ofNat 39

/-- The single-quote character as a one-character string. -/
def sq : String := String.singleton sqChar

/-- Python whitespace for str.strip: space, tab, newline, carriage return,
vertical tab, form feed. -/
def isPySpace (c : Char) : Bool :=
  c = ' ' || c = '\t' || c = '\n' || c = '\r' || c = Char.ofNat 11 || c = Char.ofNat 12

/-- Python str.strip(): remove leading and trailing whitespace. -/
def pyStrip (s : String) : String :=
  String.mk (((s.data.dropWhile isPySpace).reverse.dropWhile isPySpace).reverse)

/-- Python slicing s[n:] by code points. -/
def strDrop (s : String) (n : Nat) : String :=
  String.mk (s.data.drop n)

/-- Python slicing s[:n] by code points. -/
def strTake (s : String) (n : Nat) : String :=
  String.mk (s.data.take n)

/-- Python slicing s[1:-1] by code points (used to strip one quote layer). -/
def strInner (s : String) : String :=
  String.mk ((s.data.drop 1).dropLast)

/-- Python str.startswith, by code points. -/
def pyStartsWith (s p : String) : Bool :=
  p.data.isPrefixOf s.data

/-- Python str.endswith, by code points. -/
def pyEndsWith (s p : String) : Bool :=
  p.data.isSuffixOf s.data

/-- Python membership test of one character in a string. -/
def strContains (s : String) (c : Char) : Bool :=
  s.data.contains c

/-- Python str.lower, by code points (the sources only lower ASCII command
names). -/
def toLowerStr (s : String) : String :=
  String.mk (s.data.map Char.toLower)

/-- Python str.split on a one-character separator: the list of segments
between occurrences of the separator (an empty input gives one empty
segment, as in Python). -/
def splitOnChar (sep : Char) : List Char → List (List Char)
  | [] => [[]]
  | c :: rest =>
    let r := splitOnChar sep rest
    if c = sep then [] :: r
    else (c :: r.headD []) :: r.tail

/-- Python str.split on a one-character separator, on strings. -/
def pySplit (s : String) (sep : Char) : List String :=
  (splitOnChar sep s.data).map String.mk

/-- Python str.replace with a one-character pattern. -/
def replaceChar (c : Char) (r : List Char) : List Char → List Char
  | [] => []
  | x :: rest =>
    if x = c then r ++ replaceChar c r rest
    else x :: replaceChar c r rest

/-- Python str.replace with a one-character pattern, on strings. -/
def pyReplaceChar (s : String) (c : Char) (r : String) : String :=
  String.mk (replaceChar c r.data s.data)

/-- os.path.basename: the part of the path after the last slash. -/
def basename (s : String) : String :=
  (pySplit s '/').getLastD s

/-- Value of a hexadecimal digit character; 16 marks a non-hex character. -/
def hexVal (c : Char) : Nat :=
  if '0' ≤ c ∧ c ≤ '9' then c.toNat - 48
  else if 'a' ≤ c ∧ c ≤ 'f' then c.toNat - 87
  else if 'A' ≤ c ∧ c ≤ 'F' then c.toNat - 55
  else 16

/-- Whether a character is a hexadecimal digit (either case), as accepted by
percent-decoding. -/
def isHexChar (c : Char) : Bool :=
  hexVal c < 16

/-- urllib.parse.unquote, modelled bytewise: each valid %XX escape becomes the
character with code XX (faithful to CPython for ASCII escapes, which are the
only ones the sources rely on); invalid escapes are kept verbatim. -/
def unquoteChars : List Char → List Char
  | [] => []
  | '%' :: a :: b :: rest =>
    if isHexChar a ∧ isHexChar b then
      Char.ofNat (16 * hexVal a + hexVal b) :: unquoteChars rest
    else
      '%' :: unquoteChars (a :: b :: rest)
  | c :: rest => c :: unquoteChars rest

/-- urllib.parse.unquote on strings. -/
def unquote (s : String) : String :=
  String.mk (unquoteChars s.data)

/-- Characters that terminate the netloc component in urllib.parse.urlparse. -/
def isNetlocEnd (c : Char) : Bool :=
  c = '/' || c = '?' || c = '#'

/-- urlparse(url).netloc for a url of the form file://...: the text between
the double slash and the first slash, question mark or hash. -/
def urlNetloc (url : String) : String :=
  String.mk ((url.data.drop 7).takeWhile (fun c => !isNetlocEnd c))

/-- urlparse(url).path for a url of the form file://...: the text from the
first slash after the authority up to a question mark or hash. -/
def urlPath (url : String) : String :=
  String.mk (((url.data.drop 7).dropWhile (fun c => !isNetlocEnd c)).takeWhile
    (fun c => c ≠ '?' ∧ c ≠ '#'))

/-- src/ssh_drop_upload.py url_to_local_path: convert a file:// URL to a local
path, rejecting URLs whose authority is neither empty nor localhost; plain
absolute paths pass through; anything else yields none. -/
def url_to_local_path (url : String) : Option String :=
  if pyStartsWith url "file://" then
    let netloc := urlNetloc url
    let path := unquote (urlPath url)
    if netloc ≠ "" ∧ netloc ≠ "localhost" then none
    else some path
  else if pyStartsWith url "/" then some url
  else none

/-- src/ssh_drop_upload.py parse_uri_list: one URI per line, blank lines and
hash-comment lines dropped. -/
def parse_uri_list (text : String) : List String :=
  (pySplit (pyStrip text) '\n').foldl
    (fun urls line =>
      let l := pyStrip line
      if l ≠ "" ∧ ¬ pyStartsWith l "#" then urls ++ [l] else urls) []

/-- The file-URI step of src/smart_paste.py extract_file_paths: when the line
begins with the scheme, percent-decode everything after its seven characters
(the authority included); otherwise keep the line. -/
def uriStep (path : String) : String :=
  if pyStartsWith path "file://" then unquote (strDrop path 7) else path

/-- src/smart_paste.py extract_file_paths, per line: strip the line, peel a
file:// scheme by percent-decoding everything after the first seven
characters, strip one layer of matching single or double quotes, then keep
the path if it is non-empty and exists, in canonical absolute form.
fsExists models os.path.exists and abspath models os.path.abspath. -/
def extractLine (fsExists : String → Bool) (abspath : String → String)
    (line : String) : Option String :=
  let path := uriStep (pyStrip line)
  let path :=
    if (pyStartsWith path "\"" ∧ pyEndsWith path "\"") ∨
       (pyStartsWith path sq ∧ pyEndsWith path sq) then strInner path
    else path
  if path ≠ "" ∧ fsExists path then some (abspath path) else none

/-- src/smart_paste.py extract_file_paths: apply extractLine to every line of
the stripped input, accumulating the surviving paths in order. -/
def extract_file_paths (fsExists : String → Bool) (abspath : String → String)
    (text : String) : List String :=
  (pySplit (pyStrip text) '\n').foldl
    (fun paths line =>
      match extractLine fsExists abspath line with
      | some p => paths ++ [p]
      | none => paths) []

/-- One entry of window.child.foreground_processes: an optional pid and the
command line (proc.get('cmdline') or [] collapses a missing command line to
the empty list). -/
structure Proc where
  pid : Option Nat := none
  cmdline : List String := []
deriving DecidableEq, Repr

/-- The info dictionary built by src/smart_paste.py is_ssh_window. -/
structure WinInfo where
  is_ssh : Bool := false
  is_kitten_ssh : Bool := false
  host : Option String := none
  pid : Option Nat := none
deriving DecidableEq, Repr

/-- The info dictionary built by src/ssh_drop_upload.py check_ssh_session. -/
structure SessionInfo where
  is_ssh : Bool := false
  is_kitten_ssh : Bool := false
  host : Option String := none
deriving DecidableEq, Repr

/-- Lowercased base name of the first command-line token, the quantity both
classifiers compare against the family tokens. -/
def cmdOf (cmdline : List String) : String :=
  toLowerStr (basename (cmdline.headD ""))

/-- Host scan of the kitten branch in src/smart_paste.py: over cmdline[2:],
stop at the first token that does not start with a dash and contains an at
sign, or does not start with a dash and contains a dot. -/
def findKittenHost : List String → Option String
  | [] => none
  | a :: rest =>
    if ¬ pyStartsWith a "-" ∧ strContains a '@' then some a
    else if ¬ pyStartsWith a "-" ∧ strContains a '.' then some a
    else findKittenHost rest

/-- Host scan of the kitten branch in src/ssh_drop_upload.py: over
cmdline[2:], stop at the first token that does not start with a dash and
contains an at sign or a dot. -/
def findKittenHostDrop : List String → Option String
  | [] => none
  | a :: rest =>
    if ¬ pyStartsWith a "-" then
      if strContains a '@' ∨ strContains a '.' then some a
      else findKittenHostDrop rest
    else findKittenHostDrop rest

/-- Host scan of the plain ssh branch (both sources): iterate a list and stop
at the first token that does not start with a dash.  The callers pass the
reversed tail of the command line. -/
def firstNonDash : List String → Option String
  | [] => none
  | a :: rest => if ¬ pyStartsWith a "-" then some a else firstNonDash rest

/-- Whether the kitten family condition of both classifiers holds: the command
line has a second token and it is ssh or run-shell. -/
def kittenMatch (cmdline : List String) : Bool :=
  1 < cmdline.length ∧ (cmdline.getD 1 "" = "ssh" ∨ cmdline.getD 1 "" = "run-shell")

/-- Loop body of src/smart_paste.py is_ssh_window, threading the info
dictionary through the iterations (the pid field is overwritten by every
process with a non-empty command line, matching or not). -/
def is_ssh_windowAux (info : WinInfo) : List Proc → WinInfo
  | [] => info
  | p :: rest =>
    if p.cmdline.isEmpty then is_ssh_windowAux info rest
    else
      let cmd := cmdOf p.cmdline
      let info := { info with pid := p.pid }
      if cmd = "kitten" then
        if kittenMatch p.cmdline then
          { info with is_ssh := true, is_kitten_ssh := true,
                      host := findKittenHost (p.cmdline.drop 2) }
        else is_ssh_windowAux info rest
      else if cmd = "ssh" then
        { info with is_ssh := true,
                    host := firstNonDash (p.cmdline.drop 1).reverse }
      else if cmd = "mosh" ∨ cmd = "mosh-client" then
        { info with is_ssh := true }
      else is_ssh_windowAux info rest

/-- src/smart_paste.py is_ssh_window on a readable process list. -/
def is_ssh_window (procs : List Proc) : WinInfo :=
  is_ssh_windowAux {} procs

/-- src/smart_paste.py is_ssh_window including the try/except wrapper: an
unreadable process list (none) yields the default info dictionary. -/
def is_ssh_windowSafe : Option (List Proc) → WinInfo
  | none => {}
  | some procs => is_ssh_window procs

/-- src/ssh_drop_upload.py check_ssh_session on a readable process list.  No
pid is tracked, so no accumulator is needed. -/
def check_ssh_session : List Proc → SessionInfo
  | [] => {}
  | p :: rest =>
    if p.cmdline.isEmpty then check_ssh_session rest
    else
      let cmd := cmdOf p.cmdline
      if cmd = "kitten" then
        if kittenMatch p.cmdline then
          { is_ssh := true, is_kitten_ssh := true,
            host := findKittenHostDrop (p.cmdline.drop 2) }
        else check_ssh_session rest
      else if cmd = "ssh" then
        { is_ssh := true, is_kitten_ssh := false,
          host := firstNonDash (p.cmdline.drop 1).reverse }
      else if cmd = "mosh" ∨ cmd = "mosh-client" then
        { is_ssh := true, is_kitten_ssh := false, host := none }
      else check_ssh_session rest

/-- src/ssh_drop_upload.py check_ssh_session including the try/except
wrapper. -/
def check_ssh_sessionSafe : Option (List Proc) → SessionInfo
  | none => {}
  | some procs => check_ssh_session procs

/-- Whether a process descriptor matches one of the three remote families of
the classifiers (kitten with a designated subcommand, plain ssh, mosh). -/
def matchesFamily (p : Proc) : Prop :=
  p.cmdline ≠ [] ∧
    ((cmdOf p.cmdline = "kitten" ∧ kittenMatch p.cmdline = true) ∨
     cmdOf p.cmdline = "ssh" ∨
     cmdOf p.cmdline = "mosh" ∨ cmdOf p.cmdline = "mosh-client")

instance : DecidablePred matchesFamily := fun p => by
  unfold matchesFamily
  infer_instance

/-- Two to the thirty-second power, the modulus of 32-bit words. -/
def u32 : Nat := 4294967296

/-- Rotate a 32-bit word left by n bits. -/
def rotl32 (x n : Nat) : Nat :=
  ((x <<< n) ||| (x >>> (32 - n))) % u32

/-- UTF-8 encoding of one character, as Python str.encode produces it. -/
def utf8Bytes (c : Char) : List Nat :=
  let n := c.toNat
  if n < 128 then [n]
  else if n < 2048 then [192 + n / 64, 128 + n % 64]
  else if n < 65536 then [224 + n / 4096, 128 + n / 64 % 64, 128 + n % 64]
  else [240 + n / 262144, 128 + n / 4096 % 64, 128 + n / 64 % 64, 128 + n % 64]

/-- UTF-8 encoding of a string as a byte list. -/
def toBytes (s : String) : List Nat :=
  s.data.flatMap utf8Bytes

/-- The 64 MD5 sine constants. -/
def mdK : List Nat :=
  [0xd76aa478, 0xe8c7b756, 0x242070db, 0xc1bdceee,
   0xf57c0faf, 0x4787c62a, 0xa8304613, 0xfd469501,
   0x698098d8, 0x8b44f7af, 0xffff5bb1, 0x895cd7be,
   0x6b901122, 0xfd987193, 0xa679438e, 0x49b40821,
   0xf61e2562, 0xc040b340, 0x265e5a51, 0xe9b6c7aa,
   0xd62f105d, 0x02441453, 0xd8a1e681, 0xe7d3fbc8,
   0x21e1cde6, 0xc33707d6, 0xf4d50d87, 0x455a14ed,
   0xa9e3e905, 0xfcefa3f8, 0x676f02d9, 0x8d2a4c8a,
   0xfffa3942, 0x8771f681, 0x6d9d6122, 0xfde5380c,
   0xa4beea44, 0x4bdecfa9, 0xf6bb4b60, 0xbebfbc70,
   0x289b7ec6, 0xeaa127fa, 0xd4ef3085, 0x04881d05,
   0xd9d4d039, 0xe6db99e5, 0x1fa27cf8, 0xc4ac5665,
   0xf4292244, 0x432aff97, 0xab9423a7, 0xfc93a039,
   0x655b59c3, 0x8f0ccc92, 0xffeff47d, 0x85845dd1,
   0x6fa87e4f, 0xfe2ce6e0, 0xa3014314, 0x4e0811a1,
   0xf7537e82, 0xbd3af235, 0x2ad7d2bb, 0xeb86d391]

/-- The 64 MD5 per-round left-rotation amounts. -/
def mdS : List Nat :=
  [7, 12, 17, 22, 7, 12, 17, 22, 7, 12, 17, 22, 7, 12, 17, 22,
   5, 9, 14, 20, 5, 9, 14, 20, 5, 9, 14, 20, 5, 9, 14, 20,
   4, 11, 16, 23, 4, 11, 16, 23, 4, 11, 16, 23, 4, 11, 16, 23,
   6, 10, 15, 21, 6, 10, 15, 21, 6, 10, 15, 21, 6, 10, 15, 21]

/-- MD5 message padding: append 0x80, zeros up to 56 mod 64, and the bit
length as eight little-endian bytes. -/
def padBytes (msg : List Nat) : List Nat :=
  msg ++ 128 :: List.replicate ((119 - msg.length % 64) % 64) 0 ++
    (let n := 8 * msg.length % 18446744073709551616
     [n % 256, n / 2 ^ 8 % 256, n / 2 ^ 16 % 256, n / 2 ^ 24 % 256,
      n / 2 ^ 32 % 256, n / 2 ^ 40 % 256, n / 2 ^ 48 % 256, n / 2 ^ 56 % 256])

/-- Little-endian byte decomposition of one 32-bit word. -/
def le4 (x : Nat) : List Nat :=
  [x % 256, x / 2 ^ 8 % 256, x / 2 ^ 16 % 256, x / 2 ^ 24 % 256]

/-- The g-th little-endian 32-bit word of a 64-byte block. -/
def blockWord (block : List Nat) (g : Nat) : Nat :=
  block.getD (4 * g) 0 + 256 * block.getD (4 * g + 1) 0 +
    65536 * block.getD (4 * g + 2) 0 + 16777216 * block.getD (4 * g + 3) 0

/-- The MD5 round mixing function for round i. -/
def md5F (i b c d : Nat) : Nat :=
  if i < 16 then (b &&& c) ||| ((b ^^^ 4294967295) &&& d)
  else if i < 32 then (d &&& b) ||| ((d ^^^ 4294967295) &&& c)
  else if i < 48 then b ^^^ c ^^^ d
  else c ^^^ (b ||| (d ^^^ 4294967295))

/-- The MD5 message-word index for round i. -/
def md5G (i : Nat) : Nat :=
  if i < 16 then i
  else if i < 32 then (5 * i + 1) % 16
  else if i < 48 then (3 * i + 5) % 16
  else (7 * i) % 16

/-- One MD5 round on the running (a, b, c, d) state. -/
def md5Round (block : List Nat) (st : Nat × Nat × Nat × Nat) (i : Nat) :
    Nat × Nat × Nat × Nat :=
  let (a, b, c, d) := st
  let f := (md5F i b c d + a + mdK.getD i 0 + blockWord block (md5G i)) % u32
  (d, (b + rotl32 f (mdS.getD i 0)) % u32, b, c)

/-- Process one 64-byte block: run 64 rounds and add the result to the
incoming state wordwise. -/
def md5Block (st : Nat × Nat × Nat × Nat) (block : List Nat) :
    Nat × Nat × Nat × Nat :=
  let r := (List.range 64).foldl (md5Round block) st
  ((st.1 + r.1) % u32, (st.2.1 + r.2.1) % u32,
   (st.2.2.1 + r.2.2.1) % u32, (st.2.2.2 + r.2.2.2) % u32)

/-- Split a padded message into its 64-byte blocks. -/
def md5Blocks (msg : List Nat) : List (List Nat) :=
  (List.range (msg.length / 64)).map (fun i => (msg.drop (64 * i)).take 64)

/-- The final MD5 state after processing every block of the padded message. -/
def md5Final (s : String) : Nat × Nat × Nat × Nat :=
  (md5Blocks (padBytes (toBytes s))).foldl md5Block
    (1732584193, 4023233417, 2562383102, 271733878)

/-- The 16 MD5 digest bytes of a string (hashlib.md5(...).digest()). -/
def md5Digest (s : String) : List Nat :=
  le4 (md5Final s).1 ++ le4 (md5Final s).2.1 ++
    le4 (md5Final s).2.2.1 ++ le4 (md5Final s).2.2.2

/-- Lowercase hexadecimal digit character for a value below 16. -/
def hexDigitChar (n : Nat) : Char :=
  if n < 10 then Char.ofNat (48 + n) else Char.ofNat (87 + n)

/-- Two lowercase hexadecimal characters of one byte. -/
def byteHex (b : Nat) : List Char :=
  [hexDigitChar (b / 16), hexDigitChar (b % 16)]

/-- hashlib.md5(...).hexdigest(): the 32 lowercase hexadecimal characters of
the digest. -/
def md5_hexdigest (s : String) : String :=
  String.mk ((md5Digest s).flatMap byteHex)

/-- The fixed upload root directory of both sources. -/
def upload_dir : String := "/tmp/uploads"

/-- The 8-character token of one planned file: the first eight characters of
the md5 hexdigest of the path concatenated with the nanosecond timestamp. -/
def uidOf (fpath : String) (t : Nat) : String :=
  strTake (md5_hexdigest (fpath ++ toString t)) 8

/-- The synthesized remote destination of one planned file. -/
def remote_path (fpath : String) (t : Nat) : String :=
  upload_dir ++ "/" ++ uidOf fpath t ++ "_" ++ basename fpath

/-- All synthesized remote destinations of a plan; tns i models the value
time.time_ns() returned for the i-th file. -/
def remote_paths (tns : Nat → Nat) (files : List String) : List String :=
  files.enum.map (fun p => remote_path p.2 (tns p.1))

/-- Quote escaping of src/smart_paste.py: replace each single quote by
quote, double quote, quote, double quote, quote. -/
def sp_escape (s : String) : String :=
  pyReplaceChar s sqChar (sq ++ "\"" ++ sq ++ "\"" ++ sq)

/-- A path as src/smart_paste.py interpolates it between literal single
quotes. -/
def sp_quoted (s : String) : String :=
  sq ++ sp_escape s ++ sq

/-- Characters shlex.quote leaves unquoted (ASCII word characters and the
punctuation of its safe set). -/
def isSafeChar (c : Char) : Bool :=
  c.isAlphanum || c = '_' || c = '@' || c = '%' || c = '+' || c = '=' ||
    c = ':' || c = ',' || c = '.' || c = '/' || c = '-'

/-- shlex.quote as used by src/ssh_drop_upload.py. -/
def shlex_quote (s : String) : String :=
  if s = "" then sq ++ sq
  else if s.data.all isSafeChar then s
  else sq ++ pyReplaceChar s sqChar (sq ++ "\"" ++ sq ++ "\"" ++ sq) ++ sq

/-- The per-file transfer invocations of src/smart_paste.py. -/
def sp_upload_cmds (tns : Nat → Nat) (files : List String) : List String :=
  files.enum.map (fun p =>
    "kitten transfer --direction=upload " ++ sp_quoted p.2 ++ " " ++
      sp_quoted (remote_path p.2 (tns p.1)))

/-- The per-file transfer invocations of src/ssh_drop_upload.py. -/
def drop_upload_cmds (tns : Nat → Nat) (files : List String) : List String :=
  files.enum.map (fun p =>
    "kitten transfer --direction=upload " ++ shlex_quote p.2 ++ " " ++
      shlex_quote (remote_path p.2 (tns p.1)))

/-- The accumulation loop building full_cmd in both sources: start from the
mkdir step and append every transfer step behind a conditional-success
operator. -/
def joinAnd (init : String) (cmds : List String) : String :=
  cmds.foldl (fun acc c => acc ++ " && " ++ c) init

/-- The complete command line pasted by src/smart_paste.py in the kitten
branch, including the trailing newline. -/
def sp_full_cmd (tns : Nat → Nat) (files : List String) : String :=
  joinAnd ("mkdir -p " ++ upload_dir) (sp_upload_cmds tns files) ++
    " && echo " ++ sq ++ "Uploaded: " ++
    String.intercalate " " ((remote_paths tns files).map (fun p => sq ++ p ++ sq)) ++
    sq ++ "\n"

/-- The complete command line pasted by src/ssh_drop_upload.py in the kitten
branch, including the trailing newline.  The echo prefix reproduces the
literal characters of the source file. -/
def drop_full_cmd (tns : Nat → Nat) (files : List String) : String :=
  joinAnd ("mkdir -p " ++ upload_dir) (drop_upload_cmds tns files) ++
    " && echo " ++ sq ++ "üìÅ Uploaded: " ++
    String.intercalate " " ((remote_paths tns files).map shlex_quote) ++
    sq ++ "\n"

/-- Python falsy-or on the optional host: a missing or empty host falls back
to the given placeholder. -/
def pyOr (h : Option String) (d : String) : String :=
  match h with
  | some s => if s = "" then d else s
  | none => d

/-- The comment hint of src/smart_paste.py in the plain-ssh branch (without
its trailing newline, which handle_result appends). -/
def sp_hint (files : List String) (host : Option String) : String :=
  "  # Local path(s) - upload with: scp " ++ files.headD "" ++ " " ++
    pyOr host "host" ++ ":/tmp/"

/-- The comment hint of src/ssh_drop_upload.py in the plain-ssh branch,
including its trailing newline.  The leading characters reproduce the
literal characters of the source file. -/
def drop_hint (files : List String) (host : String) : String :=
  "  # ‚¨ÜÔ∏è  Local paths - use: scp " ++
    shlex_quote (files.headD "") ++ " " ++ host ++ ":" ++ upload_dir ++ "/\n"

/-- src/smart_paste.py handle_result as the sequence of paste_text payloads
it delivers.  The clipboard text, the filesystem oracles, the process list
and the clock are the external inputs. -/
def handle_result (fsExists : String → Bool) (abspath : String → String)
    (clipboard : String) (procs : Option (List Proc)) (tns : Nat → Nat) :
    List String :=
  if clipboard = "" then []
  else
    let files := extract_file_paths fsExists abspath clipboard
    if files.isEmpty then [clipboard]
    else
      let ssh := is_ssh_windowSafe procs
      if ¬ ssh.is_ssh then [clipboard]
      else if ssh.is_kitten_ssh then [sp_full_cmd tns files]
      else
        [String.intercalate " " (files.map (fun f => sq ++ f ++ sq)),
         sp_hint files ssh.host ++ "\n"]

/-- Outcome of the drop hook: defer to the original on_drop handler with the
payload untouched, or paste the given payload sequence instead. -/
inductive DropResult where
  | original : DropResult
  | pastes : List String → DropResult
deriving DecidableEq, Repr

/-- The local-file filter of src/ssh_drop_upload.py smart_on_drop: convert
each URI and keep the non-empty results that exist. -/
def drop_local_files (fsExists : String → Bool) (uriList : String) :
    List String :=
  (parse_uri_list uriList).foldl
    (fun acc url =>
      match url_to_local_path url with
      | some p => if p ≠ "" ∧ fsExists p then acc ++ [p] else acc
      | none => acc) []

/-- src/ssh_drop_upload.py smart_on_drop continued: the decision taken for one
drop event, given the decoded text/uri-list payload. -/
def smart_on_drop (fsExists : String → Bool) (uriList : String)
    (procs : Option (List Proc)) (tns : Nat → Nat) : DropResult :=
  if uriList = "" then .original
  else
    let local_files := drop_local_files fsExists uriList
    if local_files.isEmpty then .original
    else
      let ssh := check_ssh_sessionSafe procs
      if ¬ ssh.is_ssh then .original
      else if ssh.is_kitten_ssh then .pastes [drop_full_cmd tns local_files]
      else
        .pastes [String.intercalate " " (local_files.map shlex_quote),
                 drop_hint local_files (pyOr ssh.host "HOST")]

/-- Whether a character is a lowercase hexadecimal digit. -/
def isLowerHex (c : Char) : Bool :=
  c.isDigit || ('a' ≤ c ∧ c ≤ 'f')

/-- Explicit right-nested form of the conditional-success joining: one
" && "-headed segment per command, in order. -/
def andSteps : List String → String
  | [] => ""
  | c :: cs => " && " ++ c ++ andSteps cs

lemma hexDigitChar_lowerHex (n : Nat) (h : n < 16) :
    isLowerHex (hexDigitChar n) = true := by
  interval_cases n <;> decide

lemma byteHex_lowerHex {b : Nat} (hb : b < 256) :
    ∀ c ∈ byteHex b, isLowerHex c = true := by
  intro c hc
  simp only [byteHex, List.mem_cons, List.not_mem_nil, or_false] at hc
  rcases hc with h | h <;> subst h
  · exact hexDigitChar_lowerHex _ ((Nat.div_lt_iff_lt_mul (by omega)).mpr (by omega))
  · exact hexDigitChar_lowerHex _ (Nat.mod_lt _ (by omega))

lemma le4_mem_lt (x : Nat) : ∀ b ∈ le4 x, b < 256 := by
  intro b hb
  simp only [le4, List.mem_cons, List.not_mem_nil, or_false] at hb
  rcases hb with h | h | h | h <;> subst h <;> exact Nat.mod_lt _ (by omega)

lemma md5Digest_mem_lt (s : String) : ∀ b ∈ md5Digest s, b < 256 := by
  intro b hb
  simp only [md5Digest, List.mem_append, or_assoc] at hb
  rcases hb with h | h | h | h <;> exact le4_mem_lt _ _ h

lemma md5Digest_length (s : String) : (md5Digest s).length = 16 := by
  simp [md5Digest, le4]

lemma length_flatMap_byteHex (l : List Nat) :
    (l.flatMap byteHex).length = 2 * l.length := by
  induction l with
  | nil => simp
  | cons b bs ih => simp [byteHex, ih]; omega

lemma md5_hexdigest_data (s : String) :
    (md5_hexdigest s).data = (md5Digest s).flatMap byteHex := rfl

lemma md5_hexdigest_length (s : String) : (md5_hexdigest s).length = 32 := by
  show ((md5Digest s).flatMap byteHex).length = 32
  rw [length_flatMap_byteHex, md5Digest_length]

lemma md5_hexdigest_lowerHex (s : String) :
    ∀ c ∈ (md5_hexdigest s).data, isLowerHex c = true := by
  intro c hc
  rw [md5_hexdigest_data, List.mem_flatMap] at hc
  obtain ⟨b, hb, hcb⟩ := hc
  exact byteHex_lowerHex (md5Digest_mem_lt s b hb) c hcb

lemma uidOf_data (f : String) (t : Nat) :
    (uidOf f t).data = (md5_hexdigest (f ++ toString t)).data.take 8 := rfl

lemma uidOf_length (f : String) (t : Nat) : (uidOf f t).length = 8 := by
  show ((md5_hexdigest (f ++ toString t)).data.take 8).length = 8
  rw [List.length_take]
  have := md5_hexdigest_length (f ++ toString t)
  simp only [String.length] at this
  omega

lemma uidOf_lowerHex (f : String) (t : Nat) :
    ∀ c ∈ (uidOf f t).data, isLowerHex c = true := by
  intro c hc
  rw [uidOf_data] at hc
  exact md5_hexdigest_lowerHex _ c (List.mem_of_mem_take hc)

/-- C3: for every file planned under the transfer-capable branch, the
synthesized remote destination is the fixed upload root, a slash, the token,
an underscore and the base name, where the token is the first eight
characters of the md5 hexdigest of the absolute path concatenated with the
nanosecond timestamp captured for that file, and consists of exactly eight
lowercase hexadecimal characters. -/
theorem C3_remote_path_shape (fpath : String) (t : Nat) :
    remote_path fpath t =
      "/tmp/uploads" ++ "/" ++ uidOf fpath t ++ "_" ++ basename fpath ∧
    uidOf fpath t = strTake (md5_hexdigest (fpath ++ toString t)) 8 ∧
    (uidOf fpath t).length = 8 ∧
    ∀ c ∈ (uidOf fpath t).data, isLowerHex c = true :=
  ⟨rfl, rfl, uidOf_length fpath t, uidOf_lowerHex fpath t⟩

lemma uidOf_data_length (f : String) (t : Nat) : (uidOf f t).data.length = 8 :=
  uidOf_length f t

lemma remote_path_ne_of_uidOf_ne {f g : String} {t u : Nat}
    (h : uidOf f t ≠ uidOf g u) : remote_path f t ≠ remote_path g u := by
  intro heq
  apply h
  have hd := congrArg String.data heq
  simp only [remote_path, String.data_append, List.append_assoc,
    List.append_cancel_left_eq] at hd
  have hlen : (uidOf f t).data.length = (uidOf g u).data.length := by
    rw [uidOf_data_length, uidOf_data_length]
  exact String.ext (List.append_inj hd hlen).1

/-- C1 counterexample: planning the same local path twice while the
nanosecond clock reports the same value both times yields two syntactically
identical remote destinations, so the pairwise-distinctness claim fails. -/
theorem C1_counterexample :
    ¬ (remote_paths (fun _ => 100) ["/tmp/a.txt", "/tmp/a.txt"]).Pairwise
      (· ≠ ·) := by
  intro h
  rw [show remote_paths (fun _ => 100) ["/tmp/a.txt", "/tmp/a.txt"] =
      [remote_path "/tmp/a.txt" 100, remote_path "/tmp/a.txt" 100] from rfl] at h
  exact (List.pairwise_cons.mp h).1 _ (List.mem_singleton.mpr rfl) rfl

/-- C1 amended: the synthesized remote destinations of a plan are pairwise
syntactically distinct whenever the per-file 8-character tokens are pairwise
distinct; in particular two entries with identical path and identical
planning timestamp (the same input to the hash) receive identical
destinations. -/
theorem C1_remote_paths_pairwise_distinct (tns : Nat → Nat)
    (files : List String)
    (h : (files.enum.map (fun p => uidOf p.2 (tns p.1))).Pairwise (· ≠ ·)) :
    (remote_paths tns files).Pairwise (· ≠ ·) := by
  rw [List.pairwise_map] at h
  rw [remote_paths, List.pairwise_map]
  exact h.imp (fun hne => remote_path_ne_of_uidOf_ne hne)

/-- C1 witness: two concrete files with distinct tokens, whose planned
destinations are therefore pairwise distinct. -/
theorem C1_witness :
    ((["/a.txt", "/b.txt"].enum.map
      (fun p => uidOf p.2 ((fun _ => 7) p.1))).Pairwise (· ≠ ·)) ∧
    (remote_paths (fun _ => 7) ["/a.txt", "/b.txt"]).Pairwise (· ≠ ·) :=
  ⟨by decide, C1_remote_paths_pairwise_distinct (fun _ => 7)
    ["/a.txt", "/b.txt"] (by decide)⟩

lemma joinAnd_eq_andSteps (init : String) (cmds : List String) :
    joinAnd init cmds = init ++ andSteps cmds := by
  induction cmds generalizing init with
  | nil => simp [joinAnd, andSteps]
  | cons c cs ih =>
    have h1 : joinAnd init (c :: cs) = joinAnd (init ++ " && " ++ c) cs := rfl
    rw [h1, ih, andSteps]
    simp [String.append_assoc]

/-- C4: in the transfer-capable branch of both entry points, the emitted
command text is one line: the idempotent creation of the upload root, then
one transfer-subcommand invocation per file in input order with the quoted
local path as source and the quoted synthesized destination as target, every
step joined by the conditional-success operator, terminated by an echo
listing every synthesized destination (and a trailing newline). -/
theorem C4_full_cmd_structure (tns : Nat → Nat) (files : List String)
    (h : files ≠ []) :
    upload_dir = "/tmp/uploads" ∧
    sp_full_cmd tns files =
      ("mkdir -p " ++ upload_dir) ++ andSteps (sp_upload_cmds tns files) ++
        " && echo " ++ sq ++ "Uploaded: " ++
        String.intercalate " "
          ((remote_paths tns files).map (fun p => sq ++ p ++ sq)) ++
        sq ++ "\n" ∧
    sp_upload_cmds tns files =
      files.enum.map (fun p =>
        "kitten transfer --direction=upload " ++ sp_quoted p.2 ++ " " ++
          sp_quoted (remote_path p.2 (tns p.1))) ∧
    drop_full_cmd tns files =
      ("mkdir -p " ++ upload_dir) ++ andSteps (drop_upload_cmds tns files) ++
        " && echo " ++ sq ++ "üìÅ Uploaded: " ++
        String.intercalate " " ((remote_paths tns files).map shlex_quote) ++
        sq ++ "\n" ∧
    drop_upload_cmds tns files =
      files.enum.map (fun p =>
        "kitten transfer --direction=upload " ++ shlex_quote p.2 ++ " " ++
          shlex_quote (remote_path p.2 (tns p.1))) := by
  refine ⟨rfl, ?_, rfl, ?_, rfl⟩
  · rw [sp_full_cmd, joinAnd_eq_andSteps]
  · rw [drop_full_cmd, joinAnd_eq_andSteps]

/-- C4 witness: the structure theorem applied to one concrete file. -/
theorem C4_witness :
    (["/x"] : List String) ≠ [] ∧
    sp_full_cmd (fun _ => 0) ["/x"] =
      ("mkdir -p " ++ upload_dir) ++
        andSteps (sp_upload_cmds (fun _ => 0) ["/x"]) ++
        " && echo " ++ sq ++ "Uploaded: " ++
        String.intercalate " "
          ((remote_paths (fun _ => 0) ["/x"]).map (fun p => sq ++ p ++ sq)) ++
        sq ++ "\n" :=
  ⟨by decide, (C4_full_cmd_structure (fun _ => 0) ["/x"] (by decide)).2.1⟩

lemma firstNonDash_eq_find (l : List String) :
    firstNonDash l = l.find? (fun a => !(pyStartsWith a "-")) := by
  induction l with
  | nil => rfl
  | cons a t ih =>
    by_cases h : pyStartsWith a "-" = true
    · simp [firstNonDash, List.find?, h, ih]
    · simp at h
      simp [firstNonDash, List.find?, h, ih]

lemma is_ssh_windowAux_ssh_head (info : WinInfo) (pd : Option Nat)
    (cl : List String) (rest : List Proc) (h0 : cl ≠ [])
    (hc : cmdOf cl = "ssh") :
    is_ssh_windowAux info (⟨pd, cl⟩ :: rest) =
      { info with pid := pd, is_ssh := true,
                  host := firstNonDash (cl.drop 1).reverse } := by
  simp [is_ssh_windowAux, List.isEmpty_eq_false.mpr h0, hc]

lemma check_ssh_session_ssh_head (pd : Option Nat)
    (cl : List String) (rest : List Proc) (h0 : cl ≠ [])
    (hc : cmdOf cl = "ssh") :
    check_ssh_session (⟨pd, cl⟩ :: rest) =
      { is_ssh := true, is_kitten_ssh := false,
        host := firstNonDash (cl.drop 1).reverse } := by
  simp [check_ssh_session, List.isEmpty_eq_false.mpr h0, hc]

lemma is_ssh_windowAux_kitten_skip (info : WinInfo) (pd : Option Nat)
    (cl : List String) (rest : List Proc) (h0 : cl ≠ [])
    (hk : cmdOf cl = "kitten") (hm : kittenMatch cl = false) :
    is_ssh_windowAux info (⟨pd, cl⟩ :: rest) =
      is_ssh_windowAux { info with pid := pd } rest := by
  simp [is_ssh_windowAux, List.isEmpty_eq_false.mpr h0, hk, hm]

lemma check_ssh_session_kitten_skip (pd : Option Nat)
    (cl : List String) (rest : List Proc) (h0 : cl ≠ [])
    (hk : cmdOf cl = "kitten") (hm : kittenMatch cl = false) :
    check_ssh_session (⟨pd, cl⟩ :: rest) = check_ssh_session rest := by
  simp [check_ssh_session, List.isEmpty_eq_false.mpr h0, hk, hm]

lemma is_ssh_windowAux_no_match (info : WinInfo) (ps : List Proc)
    (h : ∀ p ∈ ps, ¬ matchesFamily p) :
    (is_ssh_windowAux info ps).is_ssh = info.is_ssh ∧
    (is_ssh_windowAux info ps).is_kitten_ssh = info.is_kitten_ssh ∧
    (is_ssh_windowAux info ps).host = info.host := by
  induction ps generalizing info with
  | nil => exact ⟨rfl, rfl, rfl⟩
  | cons p t ih =>
    have hp := h p (List.mem_cons_self p t)
    have ht := fun q hq => h q (List.mem_cons_of_mem p hq)
    rcases p with ⟨pd, cl⟩
    by_cases h0 : cl = []
    · subst h0
      simpa [is_ssh_windowAux] using ih info ht
    · have hd : ¬ ((cmdOf cl = "kitten" ∧ kittenMatch cl = true) ∨
          cmdOf cl = "ssh" ∨ cmdOf cl = "mosh" ∨ cmdOf cl = "mosh-client") :=
        fun hcon => hp ⟨h0, hcon⟩
      push_neg at hd
      by_cases hk : cmdOf cl = "kitten"
      · have hm : kittenMatch cl = false := by
          simpa using hd.1 hk
        rw [is_ssh_windowAux_kitten_skip info pd cl t h0 hk hm]
        simpa using ih { info with pid := pd } ht
      · simp only [is_ssh_windowAux, List.isEmpty_eq_false.mpr h0,
          Bool.false_eq_true, if_false, hk, hd.2.1, hd.2.2.1, hd.2.2.2,
          or_self, if_false]
        simpa using ih { info with pid := pd } ht

lemma check_ssh_session_no_match (ps : List Proc)
    (h : ∀ p ∈ ps, ¬ matchesFamily p) :
    check_ssh_session ps = {} := by
  induction ps with
  | nil => rfl
  | cons p t ih =>
    have hp := h p (List.mem_cons_self p t)
    have ht := fun q hq => h q (List.mem_cons_of_mem p hq)
    rcases p with ⟨pd, cl⟩
    by_cases h0 : cl = []
    · subst h0
      simpa [check_ssh_session] using ih ht
    · have hd : ¬ ((cmdOf cl = "kitten" ∧ kittenMatch cl = true) ∨
          cmdOf cl = "ssh" ∨ cmdOf cl = "mosh" ∨ cmdOf cl = "mosh-client") :=
        fun hcon => hp ⟨h0, hcon⟩
      push_neg at hd
      by_cases hk : cmdOf cl = "kitten"
      · have hm : kittenMatch cl = false := by
          simpa using hd.1 hk
        rw [check_ssh_session_kitten_skip pd cl t h0 hk hm]
        exact ih ht
      · simp only [check_ssh_session, List.isEmpty_eq_false.mpr h0,
          Bool.false_eq_true, if_false, hk, hd.2.1, hd.2.2.1, hd.2.2.2,
          or_self, if_false]
        exact ih ht

lemma is_ssh_windowAux_fields (i j : WinInfo) (ps : List Proc)
    (h1 : i.is_ssh = j.is_ssh) (h2 : i.is_kitten_ssh = j.is_kitten_ssh)
    (h3 : i.host = j.host) :
    (is_ssh_windowAux i ps).is_ssh = (is_ssh_windowAux j ps).is_ssh ∧
    (is_ssh_windowAux i ps).is_kitten_ssh = (is_ssh_windowAux j ps).is_kitten_ssh ∧
    (is_ssh_windowAux i ps).host = (is_ssh_windowAux j ps).host := by
  induction ps generalizing i j with
  | nil => exact ⟨h1, h2, h3⟩
  | cons p t ih =>
    rcases p with ⟨pd, cl⟩
    by_cases h0 : cl = []
    · subst h0
      simp only [is_ssh_windowAux, List.isEmpty_nil, if_true]
      exact ih i j h1 h2 h3
    · by_cases hk : cmdOf cl = "kitten"
      · by_cases hm : kittenMatch cl = true
        · simp [is_ssh_windowAux, List.isEmpty_eq_false.mpr h0, hk, hm]
        · have hm' : kittenMatch cl = false := by simpa using hm
          rw [is_ssh_windowAux_kitten_skip i pd cl t h0 hk hm',
              is_ssh_windowAux_kitten_skip j pd cl t h0 hk hm']
          exact ih _ _ h1 h2 h3
      · by_cases hs : cmdOf cl = "ssh"
        · rw [is_ssh_windowAux_ssh_head i pd cl t h0 hs,
              is_ssh_windowAux_ssh_head j pd cl t h0 hs]
          exact ⟨rfl, h2, rfl⟩
        · by_cases hmo2 : cmdOf cl = "mosh" ∨ cmdOf cl = "mosh-client"
          · simp only [is_ssh_windowAux, List.isEmpty_eq_false.mpr h0,
              Bool.false_eq_true, if_false, hk, hs, if_pos hmo2]
            exact ⟨trivial, h2, h3⟩
          · simp only [is_ssh_windowAux, List.isEmpty_eq_false.mpr h0,
              Bool.false_eq_true, if_false, hk, hs, if_neg hmo2]
            exact ih _ _ h1 h2 h3

/-- C2: first match wins: when the first descriptor is a plain ssh process
and the second is a transfer-capable kitten wrapper, both classifiers return
the plain-remote result of the first descriptor (is_ssh true, is_kitten_ssh
false) and the outcome is the same as if the first descriptor were alone. -/
theorem C2_first_match_wins (pd : Option Nat) (cl : List String) (q : Proc)
    (rest : List Proc) (h0 : cl ≠ []) (hc : cmdOf cl = "ssh")
    (hq : cmdOf q.cmdline = "kitten") (hqm : kittenMatch q.cmdline = true) :
    (is_ssh_window (⟨pd, cl⟩ :: q :: rest)).is_ssh = true ∧
    (is_ssh_window (⟨pd, cl⟩ :: q :: rest)).is_kitten_ssh = false ∧
    is_ssh_window (⟨pd, cl⟩ :: q :: rest) = is_ssh_window [⟨pd, cl⟩] ∧
    (check_ssh_session (⟨pd, cl⟩ :: q :: rest)).is_ssh = true ∧
    (check_ssh_session (⟨pd, cl⟩ :: q :: rest)).is_kitten_ssh = false ∧
    check_ssh_session (⟨pd, cl⟩ :: q :: rest) = check_ssh_session [⟨pd, cl⟩] := by
  simp only [is_ssh_window]
  rw [is_ssh_windowAux_ssh_head {} pd cl (q :: rest) h0 hc,
      is_ssh_windowAux_ssh_head {} pd cl [] h0 hc,
      check_ssh_session_ssh_head pd cl (q :: rest) h0 hc,
      check_ssh_session_ssh_head pd cl [] h0 hc]
  exact ⟨rfl, rfl, rfl, rfl, rfl, rfl⟩

/-- C2 witness: a concrete plain ssh descriptor followed by a concrete
kitten ssh descriptor. -/
theorem C2_witness :
    (is_ssh_window [⟨none, ["ssh", "user@box"]⟩, ⟨none, ["kitten", "ssh", "x@y"]⟩]).is_ssh = true ∧
    (is_ssh_window [⟨none, ["ssh", "user@box"]⟩, ⟨none, ["kitten", "ssh", "x@y"]⟩]).is_kitten_ssh = false ∧
    (check_ssh_session [⟨none, ["ssh", "user@box"]⟩, ⟨none, ["kitten", "ssh", "x@y"]⟩]).is_ssh = true ∧
    (check_ssh_session [⟨none, ["ssh", "user@box"]⟩, ⟨none, ["kitten", "ssh", "x@y"]⟩]).is_kitten_ssh = false := by
  have h := C2_first_match_wins none ["ssh", "user@box"] ⟨none, ["kitten", "ssh", "x@y"]⟩ []
    (by decide) (by decide) (by decide) (by decide)
  exact ⟨h.1, h.2.1, h.2.2.2.1, h.2.2.2.2.1⟩

/-- C7: an unreadable, empty or wholly unmatched process list classifies as
local with no host, in both classifiers; both functions are total, so no
error can escape. -/
theorem C7_unmatched_is_local (o : Option (List Proc))
    (h : o = none ∨ ∃ ps, o = some ps ∧ ∀ p ∈ ps, ¬ matchesFamily p) :
    (is_ssh_windowSafe o).is_ssh = false ∧
    (is_ssh_windowSafe o).host = none ∧
    (check_ssh_sessionSafe o).is_ssh = false ∧
    (check_ssh_sessionSafe o).host = none := by
  rcases h with rfl | ⟨ps, rfl, hps⟩
  · exact ⟨rfl, rfl, rfl, rfl⟩
  · have h1 := is_ssh_windowAux_no_match {} ps hps
    have h2 := check_ssh_session_no_match ps hps
    refine ⟨h1.1, h1.2.2, ?_, ?_⟩
    · show (check_ssh_session ps).is_ssh = false
      rw [h2]
    · show (check_ssh_session ps).host = none
      rw [h2]

/-- C7 witness: an unreadable list, and a concrete list containing a shell,
a descriptor with empty argv and a kitten descriptor with a non-designated
subcommand, none of which match a family. -/
theorem C7_witness :
    (is_ssh_windowSafe none).is_ssh = false ∧
    (is_ssh_windowSafe (some [⟨some 3, ["bash"]⟩, ⟨none, []⟩, ⟨none, ["kitten", "transfer", "x"]⟩])).is_ssh = false ∧
    (is_ssh_windowSafe (some [⟨some 3, ["bash"]⟩, ⟨none, []⟩, ⟨none, ["kitten", "transfer", "x"]⟩])).host = none ∧
    (check_ssh_sessionSafe (some [⟨some 3, ["bash"]⟩, ⟨none, []⟩, ⟨none, ["kitten", "transfer", "x"]⟩])).is_ssh = false ∧
    (check_ssh_sessionSafe (some [⟨some 3, ["bash"]⟩, ⟨none, []⟩, ⟨none, ["kitten", "transfer", "x"]⟩])).host = none := by
  have ha := C7_unmatched_is_local none (Or.inl rfl)
  have hb := C7_unmatched_is_local
    (some [⟨some 3, ["bash"]⟩, ⟨none, []⟩, ⟨none, ["kitten", "transfer", "x"]⟩])
    (Or.inr ⟨_, rfl, by decide⟩)
  exact ⟨ha.1, hb.1, hb.2.1, hb.2.2.1, hb.2.2.2⟩

/-- C8: for a leading plain ssh descriptor, both classifiers report a plain
remote session whose host is the first token of argv[1:] scanned from the
right that does not begin with a dash. -/
theorem C8_ssh_host_right_to_left (pd : Option Nat) (cl : List String)
    (rest : List Proc) (h0 : cl ≠ []) (hc : cmdOf cl = "ssh") :
    (is_ssh_window (⟨pd, cl⟩ :: rest)).is_ssh = true ∧
    (is_ssh_window (⟨pd, cl⟩ :: rest)).is_kitten_ssh = false ∧
    (is_ssh_window (⟨pd, cl⟩ :: rest)).host =
      (cl.drop 1).reverse.find? (fun a => !(pyStartsWith a "-")) ∧
    check_ssh_session (⟨pd, cl⟩ :: rest) =
      { is_ssh := true, is_kitten_ssh := false,
        host := (cl.drop 1).reverse.find? (fun a => !(pyStartsWith a "-")) } := by
  simp only [is_ssh_window]
  rw [is_ssh_windowAux_ssh_head {} pd cl rest h0 hc,
      check_ssh_session_ssh_head pd cl rest h0 hc]
  simp only [firstNonDash_eq_find]
  exact ⟨trivial, trivial, trivial, trivial⟩

/-- C8 witness: the scenario of the claim, with host user@box extracted from
the last positional argument. -/
theorem C8_witness :
    (is_ssh_window [⟨none, ["ssh", "-p", "22", "user@box"]⟩]).is_ssh = true ∧
    (is_ssh_window [⟨none, ["ssh", "-p", "22", "user@box"]⟩]).is_kitten_ssh = false ∧
    (is_ssh_window [⟨none, ["ssh", "-p", "22", "user@box"]⟩]).host = some "user@box" ∧
    check_ssh_session [⟨none, ["ssh", "-p", "22", "user@box"]⟩] =
      { is_ssh := true, is_kitten_ssh := false, host := some "user@box" } := by
  have h := C8_ssh_host_right_to_left none ["ssh", "-p", "22", "user@box"] []
    (by decide) (by decide)
  exact ⟨h.1, h.2.1, h.2.2.1.trans (by decide), h.2.2.2.trans (by decide)⟩

/-- C10: a leading kitten descriptor whose argv has no designated subcommand
does not stop classification: the observable result equals that of the rest
of the list; a later plain ssh descriptor still yields the plain-remote
result, and a wholly unmatched remainder yields local with no host. -/
theorem C10_kitten_without_subcommand_continues (pd0 : Option Nat)
    (cl0 : List String) (ps : List Proc) (h0 : cl0 ≠ [])
    (hk : cmdOf cl0 = "kitten") (hm : kittenMatch cl0 = false) :
    ((is_ssh_window (⟨pd0, cl0⟩ :: ps)).is_ssh = (is_ssh_window ps).is_ssh ∧
     (is_ssh_window (⟨pd0, cl0⟩ :: ps)).is_kitten_ssh = (is_ssh_window ps).is_kitten_ssh ∧
     (is_ssh_window (⟨pd0, cl0⟩ :: ps)).host = (is_ssh_window ps).host) ∧
    check_ssh_session (⟨pd0, cl0⟩ :: ps) = check_ssh_session ps ∧
    (∀ pd cl rest, ps = ⟨pd, cl⟩ :: rest → cl ≠ [] → cmdOf cl = "ssh" →
      (is_ssh_window (⟨pd0, cl0⟩ :: ps)).is_ssh = true ∧
      (is_ssh_window (⟨pd0, cl0⟩ :: ps)).is_kitten_ssh = false ∧
      (check_ssh_session (⟨pd0, cl0⟩ :: ps)).is_ssh = true ∧
      (check_ssh_session (⟨pd0, cl0⟩ :: ps)).is_kitten_ssh = false) ∧
    ((∀ p ∈ ps, ¬ matchesFamily p) →
      (is_ssh_window (⟨pd0, cl0⟩ :: ps)).is_ssh = false ∧
      (is_ssh_window (⟨pd0, cl0⟩ :: ps)).host = none ∧
      check_ssh_session (⟨pd0, cl0⟩ :: ps) = {}) := by
  have hskip : is_ssh_window (⟨pd0, cl0⟩ :: ps) =
      is_ssh_windowAux { pid := pd0 } ps := by
    simp only [is_ssh_window]
    exact is_ssh_windowAux_kitten_skip {} pd0 cl0 ps h0 hk hm
  have hskip2 : check_ssh_session (⟨pd0, cl0⟩ :: ps) = check_ssh_session ps :=
    check_ssh_session_kitten_skip pd0 cl0 ps h0 hk hm
  have hfields := is_ssh_windowAux_fields { pid := pd0 } {} ps rfl rfl rfl
  refine ⟨?_, hskip2, ?_, ?_⟩
  · rw [hskip]
    exact hfields
  · rintro pd cl rest rfl hcl hssh
    rw [hskip, hskip2, is_ssh_windowAux_ssh_head _ pd cl rest hcl hssh,
        check_ssh_session_ssh_head pd cl rest hcl hssh]
    exact ⟨rfl, rfl, rfl, rfl⟩
  · intro hnm
    have h1 := is_ssh_windowAux_no_match { pid := pd0 } ps hnm
    have h2 := check_ssh_session_no_match ps hnm
    rw [hskip, hskip2, h2]
    exact ⟨h1.1, h1.2.2, rfl⟩

/-- C10 witness: a kitten descriptor with subcommand transfer, followed once
by a plain ssh descriptor (plain-remote wins) and once by nothing (local). -/
theorem C10_witness :
    ((is_ssh_window [⟨none, ["kitten", "transfer"]⟩, ⟨none, ["ssh", "box"]⟩]).is_ssh = true ∧
     (is_ssh_window [⟨none, ["kitten", "transfer"]⟩, ⟨none, ["ssh", "box"]⟩]).is_kitten_ssh = false) ∧
    ((is_ssh_window [⟨none, ["kitten", "transfer"]⟩]).is_ssh = false ∧
     (is_ssh_window [⟨none, ["kitten", "transfer"]⟩]).host = none) ∧
    check_ssh_session [⟨none, ["kitten", "transfer"]⟩] = {} := by
  have ha := C10_kitten_without_subcommand_continues none ["kitten", "transfer"]
    [⟨none, ["ssh", "box"]⟩] (by decide) (by decide) (by decide)
  have hb := C10_kitten_without_subcommand_continues none ["kitten", "transfer"]
    [] (by decide) (by decide) (by decide)
  have h3 := ha.2.2.1 none ["ssh", "box"] [] rfl (by decide) (by decide)
  have h4 := hb.2.2.2 (by decide)
  exact ⟨⟨h3.1, h3.2.1⟩, ⟨h4.1, h4.2.1⟩, h4.2.2⟩

/-- C5 counterexample: the manual-paste extractor does not reject a
non-local authority (the URI text after the scheme simply becomes the path
candidate), and a localhost authority is kept inside the path instead of
being stripped; the drop converter behaves as the claim says. -/
theorem C5_counterexample :
    extract_file_paths (fun _ => true) (fun s => "/" ++ s)
      "file://otherhost/x" = ["/otherhost/x"] ∧
    url_to_local_path "file://otherhost/x" = none ∧
    extract_file_paths (fun _ => true) (fun s => s)
      "file://localhost/x" = ["localhost/x"] ∧
    url_to_local_path "file://localhost/x" = some "/x" := by decide

/-- C5 amended: only the drop converter parses the authority: it rejects a
file URL whose netloc is neither empty nor localhost and percent-decodes the
path portion otherwise; the manual-paste extractor percent-decodes the whole
text after the scheme with no authority handling at all. -/
theorem C5_authority_handling :
    (∀ url, pyStartsWith url "file://" = true → urlNetloc url ≠ "" →
      urlNetloc url ≠ "localhost" → url_to_local_path url = none) ∧
    (∀ url, pyStartsWith url "file://" = true →
      (urlNetloc url = "" ∨ urlNetloc url = "localhost") →
      url_to_local_path url = some (unquote (urlPath url))) ∧
    (∀ s, pyStartsWith s "file://" = true →
      uriStep s = unquote (strDrop s 7)) := by
  refine ⟨?_, ?_, ?_⟩
  · intro url h h1 h2
    simp [url_to_local_path, h, h1, h2]
  · intro url h h12
    rcases h12 with h1 | h1 <;> simp [url_to_local_path, h, h1]
  · intro s h
    simp [uriStep, h]

/-- C5 witness: a rejected foreign authority, an accepted empty authority
with percent-decoding, and a wholesale-decoded manual-paste candidate. -/
theorem C5_witness :
    url_to_local_path "file://evil/x" = none ∧
    url_to_local_path "file:///x%20y" = some "/x y" ∧
    uriStep "file://localhost/a%20b" = "localhost/a b" := by
  have h := C5_authority_handling
  exact ⟨h.1 _ (by decide) (by decide) (by decide),
    (h.2.1 _ (by decide) (Or.inl (by decide))).trans (by decide),
    (h.2.2 _ (by decide)).trans (by decide)⟩


lemma extract_file_paths_empty (ex : String → Bool) (ab : String → String) :
    extract_file_paths ex ab "" = [] := rfl

lemma drop_local_files_empty (ex : String → Bool) :
    drop_local_files ex "" = [] := rfl

/-- C6: an input with no extracted files is passed through raw and the
process list is never consulted, at both entry points; a non-empty file set
in a session the classifier calls local is likewise passed through. -/
theorem C6_passthrough :
    (∀ (ex : String → Bool) (ab : String → String) (clip : String)
        (o₁ o₂ : Option (List Proc)) (tns : Nat → Nat), clip ≠ "" →
      extract_file_paths ex ab clip = [] →
      handle_result ex ab clip o₁ tns = [clip] ∧
      handle_result ex ab clip o₁ tns = handle_result ex ab clip o₂ tns) ∧
    (∀ (ex : String → Bool) (ab : String → String) (clip : String)
        (o : Option (List Proc)) (tns : Nat → Nat),
      extract_file_paths ex ab clip ≠ [] →
      (is_ssh_windowSafe o).is_ssh = false →
      handle_result ex ab clip o tns = [clip]) ∧
    (∀ (ex : String → Bool) (u : String) (o₁ o₂ : Option (List Proc))
        (tns : Nat → Nat),
      drop_local_files ex u = [] →
      smart_on_drop ex u o₁ tns = .original ∧
      smart_on_drop ex u o₁ tns = smart_on_drop ex u o₂ tns) ∧
    (∀ (ex : String → Bool) (u : String) (o : Option (List Proc))
        (tns : Nat → Nat),
      drop_local_files ex u ≠ [] →
      (check_ssh_sessionSafe o).is_ssh = false →
      smart_on_drop ex u o tns = .original) := by
  refine ⟨?_, ?_, ?_, ?_⟩
  · intro ex ab clip o₁ o₂ tns hclip hex
    constructor <;> simp [handle_result, hclip, hex]
  · intro ex ab clip o tns hfiles hssh
    have hclip : clip ≠ "" := by
      intro hc
      subst hc
      exact hfiles (extract_file_paths_empty ex ab)
    simp [handle_result, hclip, List.isEmpty_eq_false.mpr hfiles, hssh]
  · intro ex u o₁ o₂ tns hfiles
    by_cases hu : u = ""
    · subst hu
      constructor <;> simp [smart_on_drop]
    · constructor <;> simp [smart_on_drop, hu, hfiles]
  · intro ex u o tns hfiles hssh
    have hu : u ≠ "" := by
      intro hc
      subst hc
      exact hfiles (drop_local_files_empty ex)
    simp [smart_on_drop, hu, List.isEmpty_eq_false.mpr hfiles, hssh]

/-- C6 witness: a clipboard with no files pasted back raw independently of
two different process lists; a file in a local session pasted back raw; the
same pair of facts for the drop hook. -/
theorem C6_witness :
    handle_result (fun _ => false) (fun s => s) "hello" none (fun _ => 0) = ["hello"] ∧
    handle_result (fun _ => false) (fun s => s) "hello" none (fun _ => 0) =
      handle_result (fun _ => false) (fun s => s) "hello" (some [⟨none, ["ssh", "box"]⟩]) (fun _ => 0) ∧
    handle_result (fun _ => true) (fun s => s) "/f" none (fun _ => 0) = ["/f"] ∧
    smart_on_drop (fun _ => true) "x" none (fun _ => 0) = .original ∧
    smart_on_drop (fun _ => true) "x" none (fun _ => 0) =
      smart_on_drop (fun _ => true) "x" (some [⟨none, ["ssh", "box"]⟩]) (fun _ => 0) ∧
    smart_on_drop (fun _ => true) "/f" none (fun _ => 0) = .original := by
  have h := C6_passthrough
  have ha := h.1 (fun _ => false) (fun s => s) "hello" none
    (some [⟨none, ["ssh", "box"]⟩]) (fun _ => 0) (by decide) (by decide)
  have hb := h.2.1 (fun _ => true) (fun s => s) "/f" none (fun _ => 0)
    (by decide) (by decide)
  have hc := h.2.2.1 (fun _ => true) "x" none
    (some [⟨none, ["ssh", "box"]⟩]) (fun _ => 0) (by decide)
  have hd := h.2.2.2 (fun _ => true) "/f" none (fun _ => 0) (by decide) (by decide)
  exact ⟨ha.1, ha.2, hb, hc.1, hc.2, hd⟩

/-- C9 counterexample: in the plain-remote branch of the manual-paste entry
point the hint directory is /tmp/, not the fixed upload root /tmp/uploads,
so the claim that the hint embeds the upload-root directory fails there. -/
theorem C9_counterexample :
    handle_result (fun _ => true) (fun s => s) "/a/f"
      (some [⟨none, ["ssh", "box"]⟩]) (fun _ => 0) =
      [sq ++ "/a/f" ++ sq,
       "  # Local path(s) - upload with: scp /a/f box:/tmp/" ++ "\n"] ∧
    ¬ List.IsInfix "/tmp/uploads".data
      (sp_hint ["/a/f"] (some "box")).data := by decide

/-- C9 amended: under a plain-remote session both entry points emit the
quoted local paths followed by a comment hint whose manual-copy template
embeds the session host (or a placeholder) and a fixed directory, namely
/tmp/ at the manual-paste entry point and the upload root /tmp/uploads/ at
the drop entry point, the example naming only the first local file. -/
theorem C9_plain_remote_fallback (ex : String → Bool) (ab : String → String)
    (clip : String) (o : Option (List Proc)) (tns : Nat → Nat)
    (f : String) (fs : List String)
    (hfiles : extract_file_paths ex ab clip = f :: fs)
    (hssh : (is_ssh_windowSafe o).is_ssh = true)
    (hk : (is_ssh_windowSafe o).is_kitten_ssh = false) :
    handle_result ex ab clip o tns =
      [String.intercalate " " ((f :: fs).map (fun x => sq ++ x ++ sq)),
       "  # Local path(s) - upload with: scp " ++ f ++ " " ++
         pyOr (is_ssh_windowSafe o).host "host" ++ ":/tmp/" ++ "\n"] ∧
    (∀ (u g : String) (gs : List String),
      drop_local_files ex u = g :: gs →
      (check_ssh_sessionSafe o).is_ssh = true →
      (check_ssh_sessionSafe o).is_kitten_ssh = false →
      smart_on_drop ex u o tns =
        .pastes [String.intercalate " " ((g :: gs).map shlex_quote),
          "  # ‚¨ÜÔ∏è  Local paths - use: scp " ++
            shlex_quote g ++ " " ++
            pyOr (check_ssh_sessionSafe o).host "HOST" ++ ":" ++
            upload_dir ++ "/\n"]) := by
  constructor
  · have hclip : clip ≠ "" := by
      intro hc
      subst hc
      rw [extract_file_paths_empty ex ab] at hfiles
      exact List.noConfusion hfiles
    simp [handle_result, hclip, hfiles, hssh, hk, sp_hint, pyOr]
  · intro u g gs ho hs2 hk2
    have hu : u ≠ "" := by
      intro hc
      subst hc
      rw [drop_local_files_empty ex] at ho
      exact List.noConfusion ho
    simp [smart_on_drop, hu, ho, hs2, hk2, drop_hint, pyOr]

/-- C9 witness: one concrete file pasted into a plain ssh session with host
box, at both entry points. -/
theorem C9_witness :
    handle_result (fun _ => true) (fun s => s) "/a/f"
      (some [⟨none, ["ssh", "box"]⟩]) (fun _ => 0) =
      [String.intercalate " " (["/a/f"].map (fun x => sq ++ x ++ sq)),
       "  # Local path(s) - upload with: scp " ++ "/a/f" ++ " " ++
         pyOr (is_ssh_windowSafe (some [⟨none, ["ssh", "box"]⟩])).host "host" ++
         ":/tmp/" ++ "\n"] ∧
    smart_on_drop (fun _ => true) "/a/f"
      (some [⟨none, ["ssh", "box"]⟩]) (fun _ => 0) =
      .pastes [String.intercalate " " (["/a/f"].map shlex_quote),
        "  # ‚¨ÜÔ∏è  Local paths - use: scp " ++
          shlex_quote "/a/f" ++ " " ++
          pyOr (check_ssh_sessionSafe (some [⟨none, ["ssh", "box"]⟩])).host "HOST" ++
          ":" ++ upload_dir ++ "/\n"] := by
  have h := C9_plain_remote_fallback (fun _ => true) (fun s => s) "/a/f"
    (some [⟨none, ["ssh", "box"]⟩]) (fun _ => 0) "/a/f" []
    (by decide) (by decide) (by decide)
  exact ⟨h.1, h.2 "/a/f" "/a/f" [] (by decide) (by decide) (by decide)⟩

end SSHPaste
